import Mathlib

/-!
Verification of the Mailuminati Guardian analyzer and reporter.

Shallow embedding of the Go sources: the redis key/value store becomes an
explicit `Store` record, the TLSH engine and SHA-1 (external to the Go code
in this tree) become abstract function parameters, and byte strings are
modelled as Lean `String`s whose characters stand for bytes.  Side effects
on TTLs and oracle calls are returned as explicit effect logs.
-/

set_option maxRecDepth 100000

namespace Guardian

/-- Go `strings.HasPrefix` (list-based so that it evaluates in the kernel). -/
def strHasPre (s p : String) : Bool :=
  p.toList.isPrefixOf s.toList

/-- Go `strings.HasSuffix` (list-based so that it evaluates in the kernel). -/
def strHasSuf (s p : String) : Bool :=
  p.toList.reverse.isPrefixOf s.toList.reverse

/-- `AnalysisResult` struct from the source (action, label, proximity_match,
distance).  TLSH distances are non-negative, so `distance` is a `Nat`. -/
structure AnalysisResult where
  action : String
  label : String := ""
  proximityMatch : Bool := false
  distance : Nat := 0
deriving Repr, DecidableEq

/-- First-occurrence deduplication, mirroring the seen-set loops that build
`ocHashes` / `localHashes` / `candidateList` in the handlers. -/
def dedup (l : List String) : List String :=
  l.foldl (fun acc h => if h ∈ acc then acc else acc ++ [h]) []

/-- Modelled from the spec: `extractBands_6_3` is not under src/ (only its
callers and its unit test are).  Per the spec's band extraction: given a
digest `T1` + 8 header hex chars + body, take the first 64 chars of the
body and emit, for i = 0,3,6,… while i+6 ≤ 64, a band `"i:v"` where `v` is
the length-6 window of the body at offset i. -/
def extractBands_6_3 (digest : String) : List String :=
  let body := (digest.toList.drop 10).take 64
  (List.range 20).map fun k =>
    toString (3 * k) ++ ":" ++ String.mk ((body.drop (3 * k)).take 6)

/-- The band keys of `bands` whose set in the index `idx` exists (a redis set
key exists iff it is non-empty). -/
def matchedBands (idx : String → List String) (bands : List String) : List String :=
  bands.filter fun b => !(idx b).isEmpty

/-- Union (SMEMBERS over all matched keys, first occurrence kept). -/
def unionMembers (idx : String → List String) (keys : List String) : List String :=
  dedup (keys.flatMap idx)

/-- The external key/value store.  Fields mirror the redis key spaces:
`mi:oracle_cache:<F>`, `oc_f:<band>`, `lg_f:<band>`, `lg_s:<F>`,
`mi_f:<band>`, `mi:msgid:<sha1>`, `mi:rpt:<sha1>:<type>` (the marker value
is its expiry time in seconds; hex SHA-1 digests contain no `:`, so the
concatenated redis key determines the (sha1, type) pair). -/
structure Store where
  oracleCache : String → Option AnalysisResult
  ocBands : String → List String
  localBands : String → List String
  scores : String → Option Int
  oracleLsh : String → Bool
  scanRecords : String → Option (List String)
  markers : String × String → Option Nat

/-- Effect log of one collision-search iteration: keys whose TTL was set via
EXPIRE, and signatures for which the oracle decision RPC was called. -/
structure StepEffects where
  refreshed : List String := []
  oracleCalls : List String := []
deriving Repr, DecidableEq

/-- Tier B (Step 1.5 in the source): oracle-cache band proximity.  Returns
the spam verdict when it fires, `none` when control falls through. -/
def tierB (st : Store) (dist : String → String → Nat) (sig : String) :
    Option AnalysisResult :=
  if 4 ≤ (matchedBands st.ocBands (extractBands_6_3 sig)).length then
    if (unionMembers st.ocBands
        (matchedBands st.ocBands (extractBands_6_3 sig))).isEmpty then none
    else
      match (unionMembers st.ocBands
          (matchedBands st.ocBands (extractBands_6_3 sig))).find?
          (fun h => decide (dist sig h ≤ 70)) with
      | some h =>
          some { action := "spam", label := "oracle_cache_match",
                 proximityMatch := true, distance := dist sig h }
      | none => none
  else none

/-- The TTL refreshes Tier C performs when it triggers: EXPIRE on each
matched local band key of the query signature. -/
def tierCEff (st : Store) (sig : String) : StepEffects :=
  { refreshed := (matchedBands st.localBands (extractBands_6_3 sig)).map
      (fun b => "lg_f:" ++ b) }

/-- Tier C (Step 2 in the source): local reputation lookup.  `none` when
fewer than 4 local band keys exist (control falls through to Tier D);
`some` when the tier triggers, carrying the result at `nextSignature`
and the TTL refreshes it performed. -/
def tierC (st : Store) (dist : String → String → Nat) (thr : Int)
    (sig : String) (acc : AnalysisResult) :
    Option (AnalysisResult × StepEffects) :=
  if 4 ≤ (matchedBands st.localBands (extractBands_6_3 sig)).length then
    if (unionMembers st.localBands
        (matchedBands st.localBands (extractBands_6_3 sig))).isEmpty then
      some ({ acc with proximityMatch := true }, tierCEff st sig)
    else
      match (unionMembers st.localBands
          (matchedBands st.localBands (extractBands_6_3 sig))).find?
          (fun h => decide (dist sig h ≤ 70) && decide (thr ≤ (st.scores h).getD 0)) with
      | some h =>
          some ({ action := "spam", label := "local_spam",
                  proximityMatch := true, distance := dist sig h },
            tierCEff st sig)
      | none => some ({ acc with proximityMatch := true }, tierCEff st sig)
  else none

/-- Tier D (Step 3 in the source): oracle LSH presence check and, on ≥ 4
band hits, the oracle decision call. -/
def tierD (st : Store) (oracle : String → AnalysisResult) (sig : String)
    (acc : AnalysisResult) : AnalysisResult × StepEffects :=
  if 4 ≤ ((extractBands_6_3 sig).filter fun b => st.oracleLsh b).length then
    if (oracle sig).action = "spam" then (oracle sig, { oracleCalls := [sig] })
    else ({ acc with proximityMatch := true }, { oracleCalls := [sig] })
  else (acc, {})

/-- Tiers B, C, D for one signature (Tier A misses). -/
def stepSigBCD (st : Store) (dist : String → String → Nat)
    (oracle : String → AnalysisResult) (thr : Int) (sig : String)
    (acc : AnalysisResult) : AnalysisResult × StepEffects :=
  match tierB st dist sig with
  | some r => (r, {})
  | none =>
    match tierC st dist thr sig acc with
    | some re => re
    | none => tierD st oracle sig acc

/-- One iteration of the collision-search loop of `analyzeHandler`
(tiers A→B→C→D for a single signature).  In the source a spam verdict
exits via `goto endAnalysis` or `break`; both are observationally the
running result with `action = "spam"`, which terminates `runSigs`. -/
def stepSig (st : Store) (dist : String → String → Nat)
    (oracle : String → AnalysisResult) (thr : Int) (sig : String)
    (acc : AnalysisResult) : AnalysisResult × StepEffects :=
  match st.oracleCache sig with
  | some res =>
      if res.action = "spam" then (res, {})
      else stepSigBCD st dist oracle thr sig acc
  | none => stepSigBCD st dist oracle thr sig acc

/-- Outcome of the collision search: final result plus the effect logs. -/
structure AnalyzeOut where
  result : AnalysisResult
  refreshed : List String
  oracleCalls : List String
deriving Repr, DecidableEq

/-- The per-signature loop: the first spam verdict terminates it. -/
def runSigs (st : Store) (dist : String → String → Nat)
    (oracle : String → AnalysisResult) (thr : Int) :
    List String → AnalysisResult → AnalyzeOut
  | [], acc => ⟨acc, [], []⟩
  | s :: rest, acc =>
    if (stepSig st dist oracle thr s acc).1.action = "spam" then
      ⟨(stepSig st dist oracle thr s acc).1,
        (stepSig st dist oracle thr s acc).2.refreshed,
        (stepSig st dist oracle thr s acc).2.oracleCalls⟩
    else
      ⟨(runSigs st dist oracle thr rest (stepSig st dist oracle thr s acc).1).result,
        (stepSig st dist oracle thr s acc).2.refreshed ++
          (runSigs st dist oracle thr rest
            (stepSig st dist oracle thr s acc).1).refreshed,
        (stepSig st dist oracle thr s acc).2.oracleCalls ++
          (runSigs st dist oracle thr rest
            (stepSig st dist oracle thr s acc).1).oracleCalls⟩

/-- The collision-search phase of `analyzeHandler`: verdict initialized to
`allow` with `proximity_match = false`, then the tiered loop. -/
def analyzeCore (st : Store) (dist : String → String → Nat)
    (oracle : String → AnalysisResult) (thr : Int) (sigs : List String) :
    AnalyzeOut :=
  runSigs st dist oracle thr sigs { action := "allow", proximityMatch := false }

/-! ## Fingerprint collection (analyzeHandler steps 1, 2 and 4) -/

/-- One MIME attachment: content type and byte content (chars = bytes). -/
structure Attachment where
  contentType : String
  content : String

/-- The parsed envelope parts the fingerprinter reads. -/
structure Message where
  text : String
  html : String
  attachments : List Attachment

/-- `MinVisualSize` constant: 50 KiB. -/
def MinVisualSize : Nat := 50 * 1024

/-- Whether `analyzeHandler` digests an attachment: an image strictly above
`MinVisualSize` bytes, or a non-image strictly above 128 bytes. -/
def attDigested (att : Attachment) : Bool :=
  (strHasPre att.contentType "image/"
    && decide (MinVisualSize < att.content.length))
  || (!strHasPre att.contentType "image/"
    && decide (128 < att.content.length))

/-- Signature collection of `analyzeHandler` (normalized body, raw body and
attachment digests).  `normalize` abstracts `normalizeEmailBody` and `tlsh`
abstracts `computeLocalTLSH` (both external to src/); `tlsh` returns `none`
when the TLSH engine fails on short or uniform input.  The optional external
image analysis is abstracted as the extra signatures `imageSigs` appended at
the end, as in the source. -/
def collectSignatures (normalize : String → String → String)
    (tlsh : String → Option String) (imageSigs : List String)
    (msg : Message) : List String :=
  (if 100 < (normalize msg.text msg.html).length then
    (tlsh (normalize msg.text msg.html)).toList
  else [])
  ++ (if 100 < (msg.text ++ msg.html).length then
    (tlsh (msg.text ++ msg.html)).toList
  else [])
  ++ (msg.attachments.flatMap fun att =>
    if attDigested att then (tlsh att.content).toList else [])
  ++ imageSigs

/-! ## analyzeHandler entry -/

/-- Outcome of the request gate at the top of `analyzeHandler`. -/
inductive AnalyzeEntry where
  | methodNotAllowed            -- 405 POST required
  | readError                   -- 500 body read error
  | invalidMime                 -- 400 invalid MIME
  | proceed (msg : Message)     -- validation passed
deriving Inhabited

/-- HTTP status of an entry outcome (200 stands for the analysis path). -/
def AnalyzeEntry.status : AnalyzeEntry → Nat
  | .methodNotAllowed => 405
  | .readError => 500
  | .invalidMime => 400
  | .proceed _ => 200

/-- Entry of `analyzeHandler`: the scanned counter is incremented first, then
the method, body-read and MIME checks run.  Returns the increment applied to
`mailuminati_guardian_scanned_total` together with the gate outcome.
`readBody` abstracts `io.ReadAll` (`none` = read error) and `parseMime`
abstracts `enmime.ReadEnvelope` (`none` = parse failure). -/
def analyzeEntry (method : String) (readBody : Option String)
    (parseMime : String → Option Message) : Nat × AnalyzeEntry :=
  (1,
    if method ≠ "POST" then .methodNotAllowed
    else
      match readBody with
      | none => .readError
      | some b =>
        match parseMime b with
        | none => .invalidMime
        | some m => .proceed m)

/-! ## reportHandler -/

/-- Parsed JSON body of a /report request. -/
structure ReportRequest where
  messageID : String
  reportType : String

/-- Message-ID canonicalization: wrap in `<…>` when brackets are missing
(only for non-empty ids, as in the source). -/
def canonMsgId (m : String) : String :=
  if 0 < m.length then
    if strHasSuf (if strHasPre m "<" then m else "<" ++ m) ">" then
      if strHasPre m "<" then m else "<" ++ m
    else (if strHasPre m "<" then m else "<" ++ m) ++ ">"
  else m

/-- The best-match fold of `reportHandler`: minimum distance candidate,
initialized to `("", 9999)`, updated on strictly smaller distance. -/
def bestMatch (dist : String → String → Nat) (sig : String)
    (cands : List String) : String × Nat :=
  cands.foldl
    (fun best h => if dist sig h < best.2 then (h, dist sig h) else best)
    ("", 9999)

/-- State threaded through the local-learning loop of `reportHandler`:
the mutable parts of the store, the TTL refreshes performed, and the
`skipOracleReport` flag. -/
structure LearnState where
  localBands : String → List String
  scores : String → Option Int
  refreshed : List String
  skip : Bool

/-- SADD: add `member` to the set at `key` (sets have no duplicates). -/
def sadd (idx : String → List String) (key member : String) :
    String → List String :=
  fun b =>
    if b = key then (if member ∈ idx key then idx key else idx key ++ [member])
    else idx b

/-- Candidate identification of the learning loop: LSH lookup over the local
band index, then the best-match fold when ≥ 4 band keys matched, else the
sentinel `("", 9999)`. -/
def reportBest (dist : String → String → Nat) (lb : String → List String)
    (hash : String) : String × Nat :=
  if 4 ≤ (matchedBands lb (extractBands_6_3 hash)).length then
    bestMatch dist hash
      (dedup ((matchedBands lb (extractBands_6_3 hash)).flatMap lb))
  else ("", 9999)

/-- The hash whose score the report adjusts: the canonical local
representative when the best-match distance is ≤ 70, otherwise the reported
hash itself. -/
def learnTarget (dist : String → String → Nat) (lb : String → List String)
    (hash : String) : String :=
  if (reportBest dist lb hash).2 ≤ 70 then (reportBest dist lb hash).1
  else hash

/-- Body of the per-fingerprint learning loop of `reportHandler`: LSH
candidate lookup, best-match selection, then the spam / ham branches. -/
def learnHash (dist : String → String → Nat) (reportType : String)
    (spamW hamW : Int) (ls : LearnState) (hash : String) : LearnState :=
  if reportType = "spam" then
    { localBands :=
        (extractBands_6_3 (learnTarget dist ls.localBands hash)).foldl
          (fun idx b => sadd idx b (learnTarget dist ls.localBands hash))
          ls.localBands,
      scores := fun k =>
        if k = learnTarget dist ls.localBands hash then
          some ((ls.scores (learnTarget dist ls.localBands hash)).getD 0 + spamW)
        else ls.scores k,
      refreshed := ls.refreshed
        ++ (extractBands_6_3 (learnTarget dist ls.localBands hash)).map
            (fun b => "lg_f:" ++ b)
        ++ ["lg_s:" ++ learnTarget dist ls.localBands hash],
      skip := ls.skip || decide ((reportBest dist ls.localBands hash).2 ≤ 70) }
  else if reportType = "ham" then
    if (reportBest dist ls.localBands hash).2 ≤ 70 then
      { ls with
        scores := fun k =>
          if k = learnTarget dist ls.localBands hash then
            some ((ls.scores (learnTarget dist ls.localBands hash)).getD 0 - hamW)
          else ls.scores k,
        refreshed := ls.refreshed
          ++ ["lg_s:" ++ learnTarget dist ls.localBands hash] }
    else ls
  else ls

/-- A stored neighbor at distance ≤ 70, found via ≥ 4 matching local band
keys, exists for `hash` in the band index `lb`. -/
def NeighborFound (lb : String → List String)
    (dist : String → String → Nat) (hash : String) : Prop :=
  4 ≤ (matchedBands lb (extractBands_6_3 hash)).length ∧
  ∃ c ∈ dedup ((matchedBands lb (extractBands_6_3 hash)).flatMap lb),
    dist hash c ≤ 70

/-- No fingerprint of the list finds a ≤ 70 neighbor, even against the band
index as updated by the learning of the preceding fingerprints of the same
report. -/
def NoNeighborChain (dist : String → String → Nat) (reportType : String)
    (spamW hamW : Int) : LearnState → List String → Prop
  | _, [] => True
  | ls, h :: rest =>
    ¬ NeighborFound ls.localBands dist h ∧
    NoNeighborChain dist reportType spamW hamW
      (learnHash dist reportType spamW hamW ls h) rest

/-- HTTP response of `reportHandler`, plus whether the POST to the oracle
/report endpoint was attempted. -/
structure ReportResponse where
  status : Nat
  body : String
  oracleAttempted : Bool
deriving Repr, DecidableEq

/-- Full outcome of a /report call: response, updated store, TTL refreshes. -/
structure ReportOut where
  resp : ReportResponse
  store : Store
  refreshed : List String

/-- Body of the duplicate-report 409 response. -/
def duplicateBody : String :=
  "\x7b\"status\":\"duplicate\",\"message\":\"Already reported\"\x7d"

/-- Body of the skipped-oracle 200 response. -/
def skippedOracleBody : String :=
  "\x7b\"status\":\"skipped_oracle\",\"reason\":\"known_locally\"\x7d"

/-- Whether the dedup marker for `(sha, ty)` is live at time `now` (redis
deletes a key once its expiry is reached). -/
def markerLive (st : Store) (sha ty : String) (now : Nat) : Bool :=
  match st.markers (sha, ty) with
  | some e => decide (now < e)
  | none => false

/-- The store after SetNX inserted the dedup marker with 24 h TTL. -/
def markStore (st : Store) (sha ty : String) (now : Nat) : Store :=
  { st with markers := fun k =>
      if k = (sha, ty) then some (now + 86400) else st.markers k }

/-- The local-learning loop of `reportHandler`: the per-fingerprint fold,
run only for the `spam` and `ham` report types. -/
def learnFold (dist : String → String → Nat) (ty : String) (sw hw : Int)
    (st1 : Store) (hashes : List String) : LearnState :=
  if ty = "spam" || ty = "ham" then
    hashes.foldl (learnHash dist ty sw hw)
      { localBands := st1.localBands, scores := st1.scores,
        refreshed := [], skip := false }
  else
    { localBands := st1.localBands, scores := st1.scores,
      refreshed := [], skip := false }

/-- `reportHandler` from the learning loop on (scan record present and
non-empty): learn, then skip the oracle for locally-known spam, otherwise
forward and proxy the oracle's status and body. -/
def reportLearn (st1 : Store) (dist : String → String → Nat) (sw hw : Int)
    (oracleReport : Option (Nat × String)) (ty : String)
    (hashes : List String) : ReportOut :=
  if ty = "spam" && (learnFold dist ty sw hw st1 hashes).skip then
    { resp := { status := 200, body := skippedOracleBody,
                oracleAttempted := false },
      store := { st1 with
        localBands := (learnFold dist ty sw hw st1 hashes).localBands,
        scores := (learnFold dist ty sw hw st1 hashes).scores },
      refreshed := (learnFold dist ty sw hw st1 hashes).refreshed }
  else
    match oracleReport with
    | none =>
      { resp := { status := 503, body := "Oracle unreachable",
                  oracleAttempted := true },
        store := { st1 with
          localBands := (learnFold dist ty sw hw st1 hashes).localBands,
          scores := (learnFold dist ty sw hw st1 hashes).scores },
        refreshed := (learnFold dist ty sw hw st1 hashes).refreshed }
    | some sb =>
      { resp := { status := sb.1, body := sb.2, oracleAttempted := true },
        store := { st1 with
          localBands := (learnFold dist ty sw hw st1 hashes).localBands,
          scores := (learnFold dist ty sw hw st1 hashes).scores },
        refreshed := (learnFold dist ty sw hw st1 hashes).refreshed }

/-- `reportHandler` after the dedup gate: scan-record lookup (404 when
absent, 400 when it holds no hashes), then the learning loop. -/
def reportCore (st1 : Store) (dist : String → String → Nat) (sw hw : Int)
    (oracleReport : Option (Nat × String)) (sha ty : String) : ReportOut :=
  match st1.scanRecords sha with
  | none =>
    { resp := { status := 404, body := "No scan data found",
                oracleAttempted := false },
      store := st1, refreshed := [] }
  | some hashes =>
    if hashes.isEmpty then
      { resp := { status := 400, body := "No hashes to report",
                  oracleAttempted := false },
        store := st1, refreshed := [] }
    else reportLearn st1 dist sw hw oracleReport ty hashes

/-- `reportHandler` after JSON decoding (method and JSON gates are upstream
of everything the claims touch): Message-ID canonicalization, the dedup
marker SetNX with 24 h TTL, then `reportCore`.  `sha1` abstracts the hex
SHA-1; `oracleReport` abstracts the oracle's response to the forwarded
report (`none` = network error); `now` is the request time in seconds. -/
def reportHandler (st : Store) (dist : String → String → Nat)
    (sha1 : String → String) (spamW hamW : Int)
    (oracleReport : Option (Nat × String)) (now : Nat)
    (req : ReportRequest) : ReportOut :=
  if markerLive st (sha1 (canonMsgId req.messageID)) req.reportType now then
    { resp := { status := 409, body := duplicateBody, oracleAttempted := false },
      store := st, refreshed := [] }
  else
    reportCore
      (markStore st (sha1 (canonMsgId req.messageID)) req.reportType now)
      dist spamW hamW oracleReport (sha1 (canonMsgId req.messageID))
      req.reportType

/-! ## Configuration -/

/-- Go `strconv.ParseInt(s, 10, 64)` (`strconv.Atoi` is the same for 64-bit
int): optional sign, non-empty run of decimal digits, int64 range check. -/
def parseInt64 (s : String) : Option Int :=
  let cs := s.toList
  let sds : Int × List Char :=
    match cs with
    | '+' :: rest => (1, rest)
    | '-' :: rest => (-1, rest)
    | _ => (1, cs)
  if sds.2.isEmpty then none
  else if sds.2.all (fun c => c.isDigit) then
    let n : Nat := sds.2.foldl (fun a c => 10 * a + (c.toNat - '0'.toNat)) 0
    let v : Int := sds.1 * n
    if -(2 ^ 63) ≤ v ∧ v ≤ 2 ^ 63 - 1 then some v else none
  else none

/-- `getEnv`: in-memory config map first (any value, even empty), then the
environment when non-empty (`env` is `os.Getenv`, returning `""` for unset
variables), then the fallback. -/
def getEnv (configMap : String → Option String) (env : String → String)
    (k f : String) : String :=
  match configMap k with
  | some v => v
  | none => if env k ≠ "" then env k else f

/-- `DefaultLocalRetention` constant: 15 days. -/
def DefaultLocalRetention : Nat := 15

/-- The values `refreshLogicConfig` stores (retention kept in days; the
source multiplies by 24 h to make a duration). -/
structure LogicConfig where
  spamWeight : Int
  hamWeight : Int
  localSpamThreshold : Int
  localRetentionDays : Int
deriving Repr, DecidableEq

/-- `refreshLogicConfig`: weights, spam threshold (clamped to ≥ 1) and
local retention (defaulted when unparsable or non-positive). -/
def refreshLogicConfig (cfg : String → Option String) (env : String → String) :
    LogicConfig :=
  let sw :=
    match parseInt64 (getEnv cfg env "SPAM_WEIGHT" "1") with
    | some v => v
    | none => 1
  let hw :=
    match parseInt64 (getEnv cfg env "HAM_WEIGHT" "2") with
    | some v => v
    | none => 2
  let th0 :=
    match parseInt64 (getEnv cfg env "SPAM_THRESHOLD" "1") with
    | some v => v
    | none => 1
  let th := if th0 < 1 then 1 else th0
  let days :=
    match parseInt64
        (getEnv cfg env "LOCAL_RETENTION_DAYS" (toString DefaultLocalRetention)) with
    | some v => if 0 < v then v else (DefaultLocalRetention : Int)
    | none => (DefaultLocalRetention : Int)
  { spamWeight := sw, hamWeight := hw, localSpamThreshold := th,
    localRetentionDays := days }

/-! ## Helper lemmas -/

theorem mem_dedup {a : String} {l : List String} : a ∈ dedup l ↔ a ∈ l := by
  have key : ∀ (l acc : List String),
      a ∈ l.foldl (fun acc h => if h ∈ acc then acc else acc ++ [h]) acc ↔
        a ∈ acc ∨ a ∈ l := by
    intro l
    induction l with
    | nil => intro acc; simp
    | cons h t ih =>
      intro acc
      simp only [List.foldl_cons]
      rw [ih]
      by_cases hh : h ∈ acc
      · simp only [if_pos hh, List.mem_cons]
        constructor
        · rintro (ha | ha)
          · exact Or.inl ha
          · exact Or.inr (Or.inr ha)
        · rintro (ha | rfl | ha)
          · exact Or.inl ha
          · exact Or.inl hh
          · exact Or.inr ha
      · simp only [if_neg hh, List.mem_append, List.mem_cons,
          List.mem_singleton]
        tauto
  simpa [dedup] using key l []

theorem bestMatch_fold_le_init (dist : String → String → Nat) (sig : String)
    (l : List String) (b : String × Nat) :
    (l.foldl (fun best h => if dist sig h < best.2 then (h, dist sig h) else best)
      b).2 ≤ b.2 := by
  induction l generalizing b with
  | nil => simp
  | cons h t ih =>
    simp only [List.foldl_cons]
    refine le_trans (ih _) ?_
    split
    · omega
    · exact le_rfl

theorem bestMatch_le_of_mem {dist : String → String → Nat} {sig c : String}
    {cands : List String} (hc : c ∈ cands) :
    (bestMatch dist sig cands).2 ≤ dist sig c := by
  unfold bestMatch
  have key : ∀ (l : List String) (b : String × Nat), c ∈ l →
      (l.foldl (fun best h => if dist sig h < best.2 then (h, dist sig h) else best)
        b).2 ≤ dist sig c := by
    intro l
    induction l with
    | nil => intro b h; cases h
    | cons h t ih =>
      intro b hmem
      simp only [List.foldl_cons]
      rcases List.mem_cons.mp hmem with rfl | hr
      · refine le_trans (bestMatch_fold_le_init dist sig t _) ?_
        split
        · exact le_rfl
        · omega
      · exact ih _ hr
  exact key cands _ hc

theorem bestMatch_cases (dist : String → String → Nat) (sig : String)
    (cands : List String) :
    bestMatch dist sig cands = ("", 9999) ∨
      ∃ c ∈ cands, bestMatch dist sig cands = (c, dist sig c) := by
  unfold bestMatch
  have key : ∀ (l : List String) (b : String × Nat),
      (l.foldl (fun best h => if dist sig h < best.2 then (h, dist sig h) else best)
        b) = b ∨
      ∃ c ∈ l,
        (l.foldl (fun best h => if dist sig h < best.2 then (h, dist sig h) else best)
          b) = (c, dist sig c) := by
    intro l
    induction l with
    | nil => intro b; exact Or.inl rfl
    | cons h t ih =>
      intro b
      simp only [List.foldl_cons]
      rcases ih (if dist sig h < b.2 then (h, dist sig h) else b) with heq | ⟨c, hc, heq⟩
      · rw [heq]
        split
        · exact Or.inr ⟨h, List.mem_cons_self h t, rfl⟩
        · exact Or.inl rfl
      · exact Or.inr ⟨c, List.mem_cons_of_mem _ hc, heq⟩
  rcases key cands ("", 9999) with h | ⟨c, hc, h⟩
  · exact Or.inl h
  · exact Or.inr ⟨c, hc, h⟩

theorem reportBest_le_iff {dist : String → String → Nat}
    {lb : String → List String} {hash : String} :
    (reportBest dist lb hash).2 ≤ 70 ↔ NeighborFound lb dist hash := by
  unfold reportBest NeighborFound
  split
  · rename_i h4
    constructor
    · intro hle
      rcases bestMatch_cases dist hash
          (dedup ((matchedBands lb (extractBands_6_3 hash)).flatMap lb)) with
        heq | ⟨c, hc, heq⟩
      · rw [heq] at hle; omega
      · exact ⟨h4, c, hc, by rw [heq] at hle; exact hle⟩
    · rintro ⟨-, c, hc, hd⟩
      exact le_trans (bestMatch_le_of_mem hc) hd
  · rename_i h4
    constructor
    · intro h; omega
    · rintro ⟨h, -⟩; exact absurd h h4

theorem reportBest_rep_of_le {dist : String → String → Nat}
    {lb : String → List String} {hash : String}
    (h : (reportBest dist lb hash).2 ≤ 70) :
    (reportBest dist lb hash).1 ∈
        dedup ((matchedBands lb (extractBands_6_3 hash)).flatMap lb) ∧
      dist hash (reportBest dist lb hash).1 = (reportBest dist lb hash).2 := by
  unfold reportBest at h ⊢
  split at h
  · rcases bestMatch_cases dist hash
        (dedup ((matchedBands lb (extractBands_6_3 hash)).flatMap lb)) with
      heq | ⟨c, hc, heq⟩
    · rw [heq] at h; omega
    · rename_i h4
      rw [if_pos h4, heq]
      rw [heq] at h
      exact ⟨hc, rfl⟩
  · omega

/-- Pointwise inclusion of band indexes. -/
def lbLE (lb1 lb2 : String → List String) : Prop :=
  ∀ b x, x ∈ lb1 b → x ∈ lb2 b

theorem lbLE_refl (lb : String → List String) : lbLE lb lb :=
  fun _ _ h => h

theorem lbLE_trans {lb1 lb2 lb3 : String → List String}
    (h12 : lbLE lb1 lb2) (h23 : lbLE lb2 lb3) : lbLE lb1 lb3 :=
  fun b x h => h23 b x (h12 b x h)

theorem nonempty_mono {lb1 lb2 : String → List String} (h : lbLE lb1 lb2)
    {b : String} (hb : (lb1 b).isEmpty = false) : (lb2 b).isEmpty = false := by
  rcases hl : lb1 b with _ | ⟨x, t⟩
  · rw [hl] at hb; simp at hb
  · have hx : x ∈ lb2 b := h b x (by rw [hl]; exact List.mem_cons_self x t)
    rcases hl2 : lb2 b with _ | _
    · rw [hl2] at hx; cases hx
    · rfl

theorem matchedBands_length_mono {lb1 lb2 : String → List String}
    (h : lbLE lb1 lb2) (bands : List String) :
    (matchedBands lb1 bands).length ≤ (matchedBands lb2 bands).length := by
  simp only [matchedBands, ← List.countP_eq_length_filter]
  refine List.countP_mono_left ?_
  intro b _ hb
  simp only [Bool.not_eq_true'] at hb ⊢
  exact nonempty_mono h hb

theorem mem_matchedBands_mono {lb1 lb2 : String → List String}
    (h : lbLE lb1 lb2) {bands : List String} {b : String}
    (hb : b ∈ matchedBands lb1 bands) : b ∈ matchedBands lb2 bands := by
  simp only [matchedBands, List.mem_filter, Bool.not_eq_true'] at hb ⊢
  exact ⟨hb.1, nonempty_mono h hb.2⟩

theorem neighborFound_mono {lb1 lb2 : String → List String}
    {dist : String → String → Nat} {hash : String} (h : lbLE lb1 lb2)
    (hn : NeighborFound lb1 dist hash) : NeighborFound lb2 dist hash := by
  obtain ⟨h4, c, hc, hd⟩ := hn
  refine ⟨le_trans h4 (matchedBands_length_mono h _), c, ?_, hd⟩
  rw [mem_dedup, List.mem_flatMap] at hc ⊢
  obtain ⟨b, hb, hcb⟩ := hc
  exact ⟨b, mem_matchedBands_mono h hb, h b c hcb⟩

theorem sadd_lbLE (idx : String → List String) (key mem : String) :
    lbLE idx (sadd idx key mem) := by
  intro b x hx
  unfold sadd
  split
  · rename_i hbk
    subst hbk
    split
    · exact hx
    · exact List.mem_append_left _ hx
  · exact hx

theorem foldl_sadd_lbLE (target : String) :
    ∀ (tb : List String) (idx : String → List String),
      lbLE idx (tb.foldl (fun idx b => sadd idx b target) idx) := by
  intro tb
  induction tb with
  | nil => intro idx; exact lbLE_refl idx
  | cons b t ih =>
    intro idx
    simp only [List.foldl_cons]
    exact lbLE_trans (sadd_lbLE idx b target) (ih _)

theorem learnHash_lbLE (dist : String → String → Nat) (ty : String)
    (sw hw : Int) (ls : LearnState) (hash : String) :
    lbLE ls.localBands (learnHash dist ty sw hw ls hash).localBands := by
  unfold learnHash
  split
  · exact foldl_sadd_lbLE _ _ _
  · split
    · split
      · exact lbLE_refl _
      · exact lbLE_refl _
    · exact lbLE_refl _

theorem learnHash_skip_true {dist : String → String → Nat} {ty : String}
    {sw hw : Int} {ls : LearnState} {hash : String} (h : ls.skip = true) :
    (learnHash dist ty sw hw ls hash).skip = true := by
  unfold learnHash
  split
  · simp [h]
  · split
    · split
      · exact h
      · exact h
    · exact h

theorem learnHash_skip_of_neighbor {dist : String → String → Nat}
    {sw hw : Int} {ls : LearnState} {hash : String}
    (hn : NeighborFound ls.localBands dist hash) :
    (learnHash dist "spam" sw hw ls hash).skip = true := by
  have hle : (reportBest dist ls.localBands hash).2 ≤ 70 :=
    reportBest_le_iff.mpr hn
  unfold learnHash
  rw [if_pos rfl]
  simp [hle]

theorem learnHash_skip_of_not_neighbor {dist : String → String → Nat}
    {sw hw : Int} {ls : LearnState} {hash : String}
    (hn : ¬ NeighborFound ls.localBands dist hash) :
    (learnHash dist "spam" sw hw ls hash).skip = ls.skip := by
  have hgt : ¬ (reportBest dist ls.localBands hash).2 ≤ 70 :=
    fun hle => hn (reportBest_le_iff.mp hle)
  unfold learnHash
  rw [if_pos rfl]
  simp [hgt]

theorem foldl_learn_skip_true {dist : String → String → Nat} {ty : String}
    {sw hw : Int} :
    ∀ (hashes : List String) (ls : LearnState), ls.skip = true →
      (hashes.foldl (learnHash dist ty sw hw) ls).skip = true := by
  intro hashes
  induction hashes with
  | nil => intro ls h; exact h
  | cons x t ih =>
    intro ls h
    simp only [List.foldl_cons]
    exact ih _ (learnHash_skip_true h)

theorem foldl_learn_skip_of_neighbor {dist : String → String → Nat}
    {sw hw : Int} :
    ∀ (hashes : List String) (ls : LearnState),
      (∃ h ∈ hashes, NeighborFound ls.localBands dist h) →
      (hashes.foldl (learnHash dist "spam" sw hw) ls).skip = true := by
  intro hashes
  induction hashes with
  | nil =>
    rintro ls ⟨h, hmem, -⟩
    cases hmem
  | cons x t ih =>
    rintro ls ⟨h, hmem, hn⟩
    simp only [List.foldl_cons]
    rcases List.mem_cons.mp hmem with rfl | hr
    · exact foldl_learn_skip_true t _ (learnHash_skip_of_neighbor hn)
    · exact ih _ ⟨h, hr, neighborFound_mono (learnHash_lbLE _ _ _ _ _ _) hn⟩

theorem foldl_learn_skip_of_chain {dist : String → String → Nat}
    {sw hw : Int} :
    ∀ (hashes : List String) (ls : LearnState),
      NoNeighborChain dist "spam" sw hw ls hashes →
      (hashes.foldl (learnHash dist "spam" sw hw) ls).skip = ls.skip := by
  intro hashes
  induction hashes with
  | nil => intro ls _; rfl
  | cons x t ih =>
    rintro ls ⟨hn, hrest⟩
    simp only [List.foldl_cons]
    rw [ih _ hrest, learnHash_skip_of_not_neighbor hn]

theorem tierB_spam {st : Store} {dist : String → String → Nat} {sig : String}
    {r : AnalysisResult} (h : tierB st dist sig = some r) : r.action = "spam" := by
  unfold tierB at h
  split at h
  · split at h
    · cases h
    · split at h
      · rw [Option.some.injEq] at h
        subst h
        rfl
      · cases h
  · cases h

theorem tierB_none {st : Store} {dist : String → String → Nat} {sig : String}
    (hB : ∀ h ∈ unionMembers st.ocBands
        (matchedBands st.ocBands (extractBands_6_3 sig)), ¬ dist sig h ≤ 70) :
    tierB st dist sig = none := by
  have hf : (unionMembers st.ocBands
      (matchedBands st.ocBands (extractBands_6_3 sig))).find?
      (fun h => decide (dist sig h ≤ 70)) = none :=
    List.find?_eq_none.mpr fun x hx => by simpa using hB x hx
  unfold tierB
  split
  · split
    · rfl
    · rw [hf]
  · rfl

theorem tierC_isSome_of_trigger {st : Store} {dist : String → String → Nat}
    {thr : Int} {sig : String} {acc : AnalysisResult}
    (h4 : 4 ≤ (matchedBands st.localBands (extractBands_6_3 sig)).length) :
    ∃ re, tierC st dist thr sig acc = some re := by
  unfold tierC
  rw [if_pos h4]
  split
  · exact ⟨_, rfl⟩
  · split
    · exact ⟨_, rfl⟩
    · exact ⟨_, rfl⟩

theorem tierC_some_eff {st : Store} {dist : String → String → Nat}
    {thr : Int} {sig : String} {acc : AnalysisResult}
    {re : AnalysisResult × StepEffects}
    (h : tierC st dist thr sig acc = some re) : re.2 = tierCEff st sig := by
  unfold tierC at h
  split at h
  · split at h
    · rw [Option.some.injEq] at h; subst h; rfl
    · split at h
      · rw [Option.some.injEq] at h; subst h; rfl
      · rw [Option.some.injEq] at h; subst h; rfl
  · cases h

theorem tierC_fires_spam {st : Store} {dist : String → String → Nat}
    {thr : Int} {sig F : String} (acc : AnalysisResult)
    (h4 : 4 ≤ (matchedBands st.localBands (extractBands_6_3 sig)).length)
    (hF : F ∈ (matchedBands st.localBands (extractBands_6_3 sig)).flatMap
      st.localBands)
    (hd : dist sig F ≤ 70) (hs : thr ≤ (st.scores F).getD 0) :
    ∃ re, tierC st dist thr sig acc = some re ∧ re.1.action = "spam" := by
  have hmem : F ∈ unionMembers st.localBands
      (matchedBands st.localBands (extractBands_6_3 sig)) := by
    unfold unionMembers
    exact mem_dedup.mpr hF
  have hsome : ((unionMembers st.localBands
      (matchedBands st.localBands (extractBands_6_3 sig))).find?
      (fun h => decide (dist sig h ≤ 70) &&
        decide (thr ≤ (st.scores h).getD 0))).isSome := by
    refine List.find?_isSome.mpr ⟨F, hmem, ?_⟩
    simp [hd, hs]
  obtain ⟨h, hh⟩ := Option.isSome_iff_exists.mp hsome
  have hne : (unionMembers st.localBands
      (matchedBands st.localBands (extractBands_6_3 sig))).isEmpty = false := by
    rcases hE : unionMembers st.localBands
        (matchedBands st.localBands (extractBands_6_3 sig)) with _ | ⟨y, t⟩
    · rw [hE] at hmem; cases hmem
    · rfl
  unfold tierC
  rw [if_pos h4, hne]
  simp only [Bool.false_eq_true, if_false, hh]
  exact ⟨_, rfl, rfl⟩

theorem tierC_no_spam {st : Store} {dist : String → String → Nat}
    {thr : Int} {sig : String} (acc : AnalysisResult)
    (h4 : 4 ≤ (matchedBands st.localBands (extractBands_6_3 sig)).length)
    (hns : ∀ h ∈ unionMembers st.localBands
        (matchedBands st.localBands (extractBands_6_3 sig)),
      dist sig h ≤ 70 → (st.scores h).getD 0 < thr) :
    tierC st dist thr sig acc
      = some ({ acc with proximityMatch := true }, tierCEff st sig) := by
  have hf : (unionMembers st.localBands
      (matchedBands st.localBands (extractBands_6_3 sig))).find?
      (fun h => decide (dist sig h ≤ 70) &&
        decide (thr ≤ (st.scores h).getD 0)) = none := by
    refine List.find?_eq_none.mpr fun x hx => ?_
    simp only [Bool.and_eq_true, decide_eq_true_eq, not_and]
    intro hd
    exact not_le.mpr (hns x hx hd)
  unfold tierC
  rw [if_pos h4]
  split
  · rfl
  · rw [hf]

theorem stepSigBCD_spam_of_local {st : Store} {dist : String → String → Nat}
    {oracle : String → AnalysisResult} {thr : Int} {sig F : String}
    (acc : AnalysisResult)
    (h4 : 4 ≤ (matchedBands st.localBands (extractBands_6_3 sig)).length)
    (hF : F ∈ (matchedBands st.localBands (extractBands_6_3 sig)).flatMap
      st.localBands)
    (hd : dist sig F ≤ 70) (hs : thr ≤ (st.scores F).getD 0) :
    (stepSigBCD st dist oracle thr sig acc).1.action = "spam" := by
  unfold stepSigBCD
  cases htb : tierB st dist sig with
  | some r => exact tierB_spam htb
  | none =>
    obtain ⟨re, hre, ha⟩ := tierC_fires_spam acc h4 hF hd hs
    rw [hre]
    exact ha

theorem stepSig_spam_of_local {st : Store} {dist : String → String → Nat}
    {oracle : String → AnalysisResult} {thr : Int} {sig F : String}
    (h4 : 4 ≤ (matchedBands st.localBands (extractBands_6_3 sig)).length)
    (hF : F ∈ (matchedBands st.localBands (extractBands_6_3 sig)).flatMap
      st.localBands)
    (hd : dist sig F ≤ 70) (hs : thr ≤ (st.scores F).getD 0) :
    ∀ acc, (stepSig st dist oracle thr sig acc).1.action = "spam" := by
  intro acc
  unfold stepSig
  cases hc : st.oracleCache sig with
  | some res =>
    dsimp only
    by_cases hres : res.action = "spam"
    · rw [if_pos hres]
      exact hres
    · rw [if_neg hres]
      exact stepSigBCD_spam_of_local acc h4 hF hd hs
  | none => exact stepSigBCD_spam_of_local acc h4 hF hd hs

theorem runSigs_spam {st : Store} {dist : String → String → Nat}
    {oracle : String → AnalysisResult} {thr : Int} {Fp : String}
    (hstep : ∀ acc, (stepSig st dist oracle thr Fp acc).1.action = "spam") :
    ∀ (sigs : List String) (acc : AnalysisResult), Fp ∈ sigs →
      (runSigs st dist oracle thr sigs acc).result.action = "spam" := by
  intro sigs
  induction sigs with
  | nil => intro acc h; cases h
  | cons s rest ih =>
    intro acc hmem
    unfold runSigs
    by_cases hs : (stepSig st dist oracle thr s acc).1.action = "spam"
    · rw [if_pos hs]
      exact hs
    · rw [if_neg hs]
      rcases List.mem_cons.mp hmem with rfl | hr
      · exact absurd (hstep acc) hs
      · exact ih _ hr

theorem stepSigBCD_of_tierC {st : Store} {dist : String → String → Nat}
    {oracle : String → AnalysisResult} {thr : Int} {sig : String}
    {acc : AnalysisResult} {re : AnalysisResult × StepEffects}
    (hB : ∀ h ∈ unionMembers st.ocBands
        (matchedBands st.ocBands (extractBands_6_3 sig)), ¬ dist sig h ≤ 70)
    (hC : tierC st dist thr sig acc = some re) :
    stepSigBCD st dist oracle thr sig acc = re := by
  unfold stepSigBCD
  rw [tierB_none hB, hC]

theorem stepSig_of_tierC {st : Store} {dist : String → String → Nat}
    {oracle : String → AnalysisResult} {thr : Int} {sig : String}
    {acc : AnalysisResult} {re : AnalysisResult × StepEffects}
    (hA : ∀ res, st.oracleCache sig = some res → ¬ res.action = "spam")
    (hB : ∀ h ∈ unionMembers st.ocBands
        (matchedBands st.ocBands (extractBands_6_3 sig)), ¬ dist sig h ≤ 70)
    (hC : tierC st dist thr sig acc = some re) :
    stepSig st dist oracle thr sig acc = re := by
  unfold stepSig
  cases hc : st.oracleCache sig with
  | some res =>
    dsimp only
    rw [if_neg (hA res hc)]
    exact stepSigBCD_of_tierC hB hC
  | none => exact stepSigBCD_of_tierC hB hC

theorem no_cache_spam {st : Store} {sig : String}
    (hc : st.oracleCache sig = none) :
    ∀ res, st.oracleCache sig = some res → ¬ res.action = "spam" := by
  intro res hr
  rw [hc] at hr
  cases hr

theorem no_oc_members {st : Store} {sig : String}
    (hoc : ∀ b, st.ocBands b = []) (h : String)
    (hh : h ∈ unionMembers st.ocBands
      (matchedBands st.ocBands (extractBands_6_3 sig))) : False := by
  rw [unionMembers, mem_dedup, List.mem_flatMap] at hh
  obtain ⟨b, hb, hhb⟩ := hh
  rw [hoc b] at hhb
  cases hhb

/-! ## Concrete instances used by witnesses and counterexamples -/

/-- A well-formed digest whose body is 64 `A`s. -/
def digA : String := "T1" ++ "00000000" ++ String.mk (List.replicate 64 'A')

/-- A well-formed digest whose body is 64 `B`s. -/
def digB : String := "T1" ++ "00000000" ++ String.mk (List.replicate 64 'B')

/-- A digest agreeing with `digA` on the first 15 body chars only, hence
sharing exactly the four bands at offsets 0, 3, 6, 9 with it. -/
def digAB : String :=
  "T1" ++ "00000000" ++ String.mk (List.replicate 15 'A' ++ List.replicate 49 'B')

/-- The empty store. -/
def storeEmpty : Store :=
  { oracleCache := fun _ => none, ocBands := fun _ => [],
    localBands := fun _ => [], scores := fun _ => none,
    oracleLsh := fun _ => false, scanRecords := fun _ => none,
    markers := fun _ => none }

/-- Store holding `digA` in the local index with score 1. -/
def storeA : Store :=
  { storeEmpty with
    localBands := fun b => if b ∈ extractBands_6_3 digA then [digA] else [],
    scores := fun f => if f = digA then some 1 else none }

/-- Store where `digA`'s band keys hold the far-away digest `digB`
(score 5), and every oracle LSH band is present. -/
def storeC2 : Store :=
  { storeEmpty with
    localBands := fun b => if b ∈ extractBands_6_3 digA then [digB] else [],
    scores := fun f => if f = digB then some 5 else none,
    oracleLsh := fun _ => true }

/-- Store holding `digA` in the local index with score 5. -/
def storeC7 : Store :=
  { storeEmpty with
    localBands := fun b => if b ∈ extractBands_6_3 digA then [digA] else [],
    scores := fun f => if f = digA then some 5 else none }

/-! ## Claims -/

/-- C1: spam dominance.  For every stored fingerprint `F` whose local score
is at least the spam threshold, and every analyzed message whose fingerprint
list contains `Fp` at TLSH distance at most 70 from `F` such that at least 4
of `Fp`'s band keys exist in the local band index and `F` is a member of
their union, the /analyze collision search returns `action = "spam"`. -/
theorem spam_dominance
    (st : Store) (dist : String → String → Nat)
    (oracle : String → AnalysisResult) (thr : Int) (sigs : List String)
    (F Fp : String) (hmem : Fp ∈ sigs)
    (hband : 4 ≤ (matchedBands st.localBands (extractBands_6_3 Fp)).length)
    (hunion : F ∈ (matchedBands st.localBands (extractBands_6_3 Fp)).flatMap
      st.localBands)
    (hdist : dist Fp F ≤ 70)
    (hscore : thr ≤ (st.scores F).getD 0) :
    (analyzeCore st dist oracle thr sigs).result.action = "spam" := by
  unfold analyzeCore
  exact runSigs_spam (stepSig_spam_of_local hband hunion hdist hscore) sigs _ hmem

theorem spam_dominance_witness :
    (analyzeCore storeA (fun _ _ => 0) (fun _ => { action := "allow" }) 1
      [digA]).result.action = "spam" :=
  spam_dominance storeA (fun _ _ => 0) (fun _ => { action := "allow" }) 1
    [digA] digA digA (by decide) (by decide) (by decide) (by decide)
    (by decide)

/-- C2 counterexample: a fingerprint for which Tier C finds 20 matching
local band keys but no candidate within distance 70 with score at or above
the threshold.  Every oracle LSH band is present and the oracle would answer
spam, so under the claim Tier D would be attempted and the response would be
spam; the code instead answers allow with `proximity_match = true` and never
calls the oracle. -/
theorem tierC_shadows_tierD_cex :
    (analyzeCore storeC2 (fun _ _ => 100) (fun _ => { action := "spam" }) 1
      [digA]).result.action = "allow" ∧
    (analyzeCore storeC2 (fun _ _ => 100) (fun _ => { action := "spam" }) 1
      [digA]).result.proximityMatch = true ∧
    (analyzeCore storeC2 (fun _ _ => 100) (fun _ => { action := "spam" }) 1
      [digA]).oracleCalls = [] := by
  decide

/-- C2 (amended): when Tier A and Tier B do not fire and Tier C finds at
least 4 matching local band keys but no candidate within distance 70 has a
score at or above the threshold, the analyzer records
`proximity_match = true` and moves to the next fingerprint WITHOUT
attempting Tier D (no oracle decision call) for that fingerprint. -/
theorem tierC_skips_tierD
    (st : Store) (dist : String → String → Nat)
    (oracle : String → AnalysisResult) (thr : Int) (sig : String)
    (acc : AnalysisResult)
    (hA : ∀ res, st.oracleCache sig = some res → ¬ res.action = "spam")
    (hB : ∀ h ∈ unionMembers st.ocBands
        (matchedBands st.ocBands (extractBands_6_3 sig)), ¬ dist sig h ≤ 70)
    (h4 : 4 ≤ (matchedBands st.localBands (extractBands_6_3 sig)).length)
    (hns : ∀ h ∈ unionMembers st.localBands
        (matchedBands st.localBands (extractBands_6_3 sig)),
      dist sig h ≤ 70 → (st.scores h).getD 0 < thr) :
    (stepSig st dist oracle thr sig acc).1 = { acc with proximityMatch := true } ∧
    (stepSig st dist oracle thr sig acc).2.oracleCalls = [] := by
  rw [stepSig_of_tierC hA hB (tierC_no_spam acc h4 hns)]
  exact ⟨rfl, rfl⟩

theorem tierC_skips_tierD_witness :
    (stepSig storeC2 (fun _ _ => 100) (fun _ => { action := "spam" }) 1 digA
      { action := "allow" }).1
        = { action := "allow", proximityMatch := true } ∧
    (stepSig storeC2 (fun _ _ => 100) (fun _ => { action := "spam" }) 1 digA
      { action := "allow" }).2.oracleCalls = [] :=
  tierC_skips_tierD storeC2 (fun _ _ => 100) (fun _ => { action := "spam" }) 1
    digA { action := "allow" }
    (no_cache_spam rfl)
    (fun h hh => ((no_oc_members (fun _ => rfl) h hh).elim))
    (by decide) (by decide)

/-- C7 counterexample: the query `digAB` shares exactly the four bands at
offsets 0, 3, 6, 9 with the stored digest `digA`; Tier C fires (a positive
local band match, here even a local spam verdict), yet only those four
shared band keys are TTL-refreshed: the matched digest's other band key
`lg_f:12:AAAAAA` and its score key `lg_s:<digA>` are not refreshed,
contradicting the claim that every band key of the matched digest and its
score key are extended. -/
theorem ttl_refresh_cex :
    (analyzeCore storeC7 (fun _ _ => 50) (fun _ => { action := "allow" }) 1
      [digAB]).result.action = "spam" ∧
    (analyzeCore storeC7 (fun _ _ => 50) (fun _ => { action := "allow" }) 1
      [digAB]).refreshed
      = ["lg_f:0:AAAAAA", "lg_f:3:AAAAAA", "lg_f:6:AAAAAA", "lg_f:9:AAAAAA"] ∧
    "lg_f:12:AAAAAA" ∉ (analyzeCore storeC7 (fun _ _ => 50)
      (fun _ => { action := "allow" }) 1 [digAB]).refreshed ∧
    ("lg_s:" ++ digA) ∉ (analyzeCore storeC7 (fun _ _ => 50)
      (fun _ => { action := "allow" }) 1 [digAB]).refreshed := by
  decide

/-- C7 (amended): on a positive local band match during /analyze (Tier C
with at least 4 matching local band keys, Tiers A and B not firing), the
TTL-refreshed keys are exactly the matched band keys of the QUERY
fingerprint — the band keys it shares with the local index — and nothing
else (in particular not the other band keys of the matched digest and not
its score key). -/
theorem tierC_refresh_matched_only
    (st : Store) (dist : String → String → Nat)
    (oracle : String → AnalysisResult) (thr : Int) (sig : String)
    (acc : AnalysisResult)
    (hA : ∀ res, st.oracleCache sig = some res → ¬ res.action = "spam")
    (hB : ∀ h ∈ unionMembers st.ocBands
        (matchedBands st.ocBands (extractBands_6_3 sig)), ¬ dist sig h ≤ 70)
    (h4 : 4 ≤ (matchedBands st.localBands (extractBands_6_3 sig)).length) :
    (stepSig st dist oracle thr sig acc).2.refreshed
      = (matchedBands st.localBands (extractBands_6_3 sig)).map
          (fun b => "lg_f:" ++ b) := by
  obtain ⟨re, hre⟩ := @tierC_isSome_of_trigger st dist thr sig acc h4
  rw [stepSig_of_tierC hA hB hre, tierC_some_eff hre]
  rfl

theorem tierC_refresh_matched_only_witness :
    (stepSig storeC7 (fun _ _ => 50) (fun _ => { action := "allow" }) 1 digAB
      { action := "allow" }).2.refreshed
      = (matchedBands storeC7.localBands (extractBands_6_3 digAB)).map
          (fun b => "lg_f:" ++ b) :=
  tierC_refresh_matched_only storeC7 (fun _ _ => 50)
    (fun _ => { action := "allow" }) 1 digAB { action := "allow" }
    (no_cache_spam rfl)
    (fun h hh => ((no_oc_members (fun _ => rfl) h hh).elim))
    (by decide)

/-- A message whose whole content is a 100-byte plain-text body. -/
def msg100 : Message :=
  { text := String.mk (List.replicate 100 'a'), html := "", attachments := [] }

/-- A message whose whole content is a 101-byte plain-text body. -/
def msg101 : Message :=
  { text := String.mk (List.replicate 101 'a'), html := "", attachments := [] }

/-- C3 counterexample: a message whose normalized body yields exactly 100
bytes (here `normalize` returns the 100-byte text part unchanged and the
TLSH engine always succeeds).  The claim's inclusive threshold (at least
100 bytes) demands a digest; the code's strict `> 100` comparison produces
none. -/
theorem digest_threshold_cex :
    collectSignatures (fun t _ => t) (fun _ => some "T1AB") [] msg100 = [] := by
  decide

/-- C3 (amended): digest-source thresholds are strict (exclusive): with a
total TLSH engine, the number of digests collected is one for the normalized
body exactly when it exceeds 100 bytes, one for the raw body exactly when it
exceeds 100 bytes, and one per attachment exactly when it is an image
strictly larger than `MinVisualSize` (50 KiB) or a non-image strictly larger
than 128 bytes; sources at or below these sizes contribute no digest. -/
theorem digest_thresholds_strict
    (normalize : String → String → String) (tlsh : String → Option String)
    (msg : Message) (htlsh : ∀ s, (tlsh s).isSome = true) :
    (collectSignatures normalize tlsh [] msg).length
      = (if 100 < (normalize msg.text msg.html).length then 1 else 0)
      + (if 100 < (msg.text ++ msg.html).length then 1 else 0)
      + (msg.attachments.filter attDigested).length := by
  have htl : ∀ s, ((tlsh s).toList).length = 1 := by
    intro s
    rcases ho : tlsh s with _ | x
    · exact absurd (ho ▸ htlsh s) (by simp)
    · rfl
  have hflat : ∀ atts : List Attachment,
      (atts.flatMap fun att =>
        if attDigested att then (tlsh att.content).toList else []).length
      = (atts.filter attDigested).length := by
    intro atts
    induction atts with
    | nil => rfl
    | cons a t ih =>
      by_cases hp : attDigested a
      · simp only [List.flatMap_cons, List.length_append, ih,
          List.filter_cons_of_pos hp, List.length_cons, if_pos hp, htl]
        omega
      · simp only [List.flatMap_cons, List.length_append, ih,
          List.filter_cons_of_neg (by simpa using hp), if_neg hp,
          List.length_nil]
        omega
  simp only [collectSignatures, List.length_append, hflat, List.length_nil]
  by_cases h1 : 100 < (normalize msg.text msg.html).length
  · by_cases h2 : 100 < (msg.text ++ msg.html).length
    · simp only [if_pos h1, if_pos h2, htl]
      omega
    · simp only [if_pos h1, if_neg h2, htl, List.length_nil]
      omega
  · by_cases h2 : 100 < (msg.text ++ msg.html).length
    · simp only [if_neg h1, if_pos h2, htl, List.length_nil]
      omega
    · simp only [if_neg h1, if_neg h2, List.length_nil]
      omega

theorem digest_thresholds_strict_witness :
    (collectSignatures (fun t _ => t) (fun _ => some "T1AB") [] msg101).length
      = (if 100 < ((fun (t : String) (_ : String) => t) msg101.text
          msg101.html).length then 1 else 0)
      + (if 100 < (msg101.text ++ msg101.html).length then 1 else 0)
      + (msg101.attachments.filter attDigested).length :=
  digest_thresholds_strict (fun t _ => t) (fun _ => some "T1AB") msg101
    (fun _ => rfl)

/-- C10: every request to /analyze increments the scanned counter (by
exactly 1, before any validation), so requests rejected with 405 (non-POST),
500 (body read failure) and 400 (MIME parse failure) are all counted in
`mailuminati_guardian_scanned_total`. -/
theorem scanned_counted_before_validation
    (method : String) (readBody : Option String)
    (parseMime : String → Option Message) :
    (analyzeEntry method readBody parseMime).1 = 1 ∧
    (method ≠ "POST" →
      (analyzeEntry method readBody parseMime).2.status = 405) ∧
    (method = "POST" → readBody = none →
      (analyzeEntry method readBody parseMime).2.status = 500) ∧
    (∀ b, method = "POST" → readBody = some b → parseMime b = none →
      (analyzeEntry method readBody parseMime).2.status = 400) := by
  refine ⟨rfl, ?_, ?_, ?_⟩
  · intro hm
    simp [analyzeEntry, hm, AnalyzeEntry.status]
  · intro hm hb
    simp [analyzeEntry, hm, hb, AnalyzeEntry.status]
  · intro b hm hb hp
    simp [analyzeEntry, hm, hb, hp, AnalyzeEntry.status]

theorem scanned_counted_before_validation_witness :
    (analyzeEntry "GET" none (fun _ => none)).1 = 1 ∧
    (analyzeEntry "GET" none (fun _ => none)).2.status = 405 :=
  ⟨(scanned_counted_before_validation "GET" none (fun _ => none)).1,
    (scanned_counted_before_validation "GET" none (fun _ => none)).2.1
      (by decide)⟩

/-- C8 counterexample: with `SPAM_WEIGHT` set to `"-5"` in the config map,
`strconv.ParseInt` succeeds and the negative value is stored as the spam
weight, contradicting the claim that `SPAM_WEIGHT` is always ≥ 0 (the same
holds for `HAM_WEIGHT`). -/
theorem negative_weight_cex :
    (refreshLogicConfig
      (fun k => if k = "SPAM_WEIGHT" then some "-5" else none)
      (fun _ => "")).spamWeight < 0 := by
  decide

/-- C8 (amended): every option resolves config map first, then non-empty
environment, then default; `SPAM_WEIGHT` defaults to 1 and `HAM_WEIGHT` to 2,
with unparsable resolved values replaced by the default but no sign
constraint (parsed negative values are stored as-is); `SPAM_THRESHOLD`
defaults to 1, keeps 1 when the resolved value is unparsable, and is clamped
to at least 1; `LOCAL_RETENTION_DAYS` defaults to 15 and non-positive or
unparsable resolved values are replaced by the default 15 (so it is always
positive). -/
theorem config_resolution (cfg : String → Option String) (env : String → String) :
    (∀ k f v, cfg k = some v → getEnv cfg env k f = v) ∧
    (∀ k f, cfg k = none → env k ≠ "" → getEnv cfg env k f = env k) ∧
    (∀ k f, cfg k = none → env k = "" → getEnv cfg env k f = f) ∧
    1 ≤ (refreshLogicConfig cfg env).localSpamThreshold ∧
    1 ≤ (refreshLogicConfig cfg env).localRetentionDays ∧
    (cfg "SPAM_WEIGHT" = none → env "SPAM_WEIGHT" = "" →
      (refreshLogicConfig cfg env).spamWeight = 1) ∧
    (cfg "HAM_WEIGHT" = none → env "HAM_WEIGHT" = "" →
      (refreshLogicConfig cfg env).hamWeight = 2) ∧
    (cfg "SPAM_THRESHOLD" = none → env "SPAM_THRESHOLD" = "" →
      (refreshLogicConfig cfg env).localSpamThreshold = 1) ∧
    (cfg "LOCAL_RETENTION_DAYS" = none → env "LOCAL_RETENTION_DAYS" = "" →
      (refreshLogicConfig cfg env).localRetentionDays = 15) ∧
    (parseInt64 (getEnv cfg env "SPAM_WEIGHT" "1") = none →
      (refreshLogicConfig cfg env).spamWeight = 1) ∧
    (parseInt64 (getEnv cfg env "HAM_WEIGHT" "2") = none →
      (refreshLogicConfig cfg env).hamWeight = 2) ∧
    (parseInt64 (getEnv cfg env "SPAM_THRESHOLD" "1") = none →
      (refreshLogicConfig cfg env).localSpamThreshold = 1) ∧
    (parseInt64 (getEnv cfg env "LOCAL_RETENTION_DAYS"
        (toString DefaultLocalRetention)) = none →
      (refreshLogicConfig cfg env).localRetentionDays = 15) ∧
    (∀ v, parseInt64 (getEnv cfg env "LOCAL_RETENTION_DAYS"
        (toString DefaultLocalRetention)) = some v → v ≤ 0 →
      (refreshLogicConfig cfg env).localRetentionDays = 15) := by
  refine ⟨?_, ?_, ?_, ?_, ?_, ?_, ?_, ?_, ?_, ?_, ?_, ?_, ?_, ?_⟩
  · intro k f v hv
    simp [getEnv, hv]
  · intro k f hc he
    simp [getEnv, hc, he]
  · intro k f hc he
    simp [getEnv, hc, he]
  · simp only [refreshLogicConfig]
    split
    · omega
    · omega
  · simp only [refreshLogicConfig]
    rcases hp : parseInt64 (getEnv cfg env "LOCAL_RETENTION_DAYS"
        (toString DefaultLocalRetention)) with _ | v
    · simp [DefaultLocalRetention]
    · simp only []
      split
      · omega
      · simp [DefaultLocalRetention]
  · intro hc he
    simp only [refreshLogicConfig, getEnv, hc, he, ne_eq,
      not_true_eq_false, if_false]
    decide
  · intro hc he
    simp only [refreshLogicConfig, getEnv, hc, he, ne_eq,
      not_true_eq_false, if_false]
    decide
  · intro hc he
    simp only [refreshLogicConfig, getEnv, hc, he, ne_eq,
      not_true_eq_false, if_false]
    decide
  · intro hc he
    simp only [refreshLogicConfig, getEnv, hc, he, ne_eq,
      not_true_eq_false, if_false]
    decide
  · intro hp
    simp only [refreshLogicConfig, hp]
  · intro hp
    simp only [refreshLogicConfig, hp]
  · intro hp
    simp only [refreshLogicConfig, hp]
    decide
  · intro hp
    simp only [refreshLogicConfig, hp]
    decide
  · intro v hv hle
    simp only [refreshLogicConfig, hv]
    rw [if_neg (not_lt.mpr hle)]
    decide

theorem config_resolution_witness :
    getEnv (fun _ => none) (fun _ => "") "SPAM_WEIGHT" "1" = "1" ∧
    1 ≤ (refreshLogicConfig (fun _ => none) (fun _ => "")).localSpamThreshold ∧
    (refreshLogicConfig
      (fun k => if k = "SPAM_WEIGHT" then some "abc" else none)
      (fun _ => "")).spamWeight = 1 ∧
    (refreshLogicConfig
      (fun k => if k = "LOCAL_RETENTION_DAYS" then some "-3" else none)
      (fun _ => "")).localRetentionDays = 15 :=
  ⟨(config_resolution (fun _ => none) (fun _ => "")).2.2.1 "SPAM_WEIGHT" "1"
      rfl rfl,
    (config_resolution (fun _ => none) (fun _ => "")).2.2.2.1,
    (config_resolution
        (fun k => if k = "SPAM_WEIGHT" then some "abc" else none)
        (fun _ => "")).2.2.2.2.2.2.2.2.2.1 (by decide),
    (config_resolution
        (fun k => if k = "LOCAL_RETENTION_DAYS" then some "-3" else none)
        (fun _ => "")).2.2.2.2.2.2.2.2.2.2.2.2.2 (-3) (by decide) (by decide)⟩

/-! ## Report-side lemmas -/

theorem reportCore_markers (st1 : Store) (dist : String → String → Nat)
    (sw hw : Int) (orr : Option (Nat × String)) (sha ty : String) :
    (reportCore st1 dist sw hw orr sha ty).store.markers = st1.markers := by
  unfold reportCore reportLearn
  split
  · rfl
  · split
    · rfl
    · split
      · rfl
      · split
        · rfl
        · rfl

theorem reportCore_scanRecords (st1 : Store) (dist : String → String → Nat)
    (sw hw : Int) (orr : Option (Nat × String)) (sha ty : String) :
    (reportCore st1 dist sw hw orr sha ty).store.scanRecords
      = st1.scanRecords := by
  unfold reportCore reportLearn
  split
  · rfl
  · split
    · rfl
    · split
      · rfl
      · split
        · rfl
        · rfl

theorem reportHandler_not_live {st : Store} {dist : String → String → Nat}
    {sha1 : String → String} {sw hw : Int} {orr : Option (Nat × String)}
    {now : Nat} {m ty : String}
    (h : markerLive st (sha1 (canonMsgId m)) ty now = false) :
    reportHandler st dist sha1 sw hw orr now ⟨m, ty⟩
      = reportCore (markStore st (sha1 (canonMsgId m)) ty now) dist sw hw orr
          (sha1 (canonMsgId m)) ty := by
  unfold reportHandler
  simp only [h, Bool.false_eq_true, if_false]

theorem reportHandler_live {st : Store} {dist : String → String → Nat}
    {sha1 : String → String} {sw hw : Int} {orr : Option (Nat × String)}
    {now : Nat} {m ty : String}
    (h : markerLive st (sha1 (canonMsgId m)) ty now = true) :
    reportHandler st dist sha1 sw hw orr now ⟨m, ty⟩
      = { resp := { status := 409, body := duplicateBody,
                    oracleAttempted := false },
          store := st, refreshed := [] } := by
  unfold reportHandler
  simp only [h, if_true]

/-- C6: report deduplication.  With the `(msgid, type)` marker initially
absent, the first /report inserts the 24 h marker (evidence that it passed
the dedup gate and proceeded); a second /report for the same `(msgid, type)`
within 24 hours receives 409 with the duplicate body and changes nothing;
a /report for the same msgid with a different type is not deduplicated
against it: it passes the gate and inserts its own marker. -/
theorem report_dedup
    (st : Store) (dist : String → String → Nat) (sha1 : String → String)
    (sw hw : Int) (or1 or2 or3 : Option (Nat × String)) (t1 t2 : Nat)
    (m ty ty' : String)
    (hfree : st.markers (sha1 (canonMsgId m), ty) = none)
    (hwin : t2 < t1 + 86400)
    (hty' : ty' ≠ ty)
    (hfree' : st.markers (sha1 (canonMsgId m), ty') = none) :
    (reportHandler st dist sha1 sw hw or1 t1 ⟨m, ty⟩).store.markers
        (sha1 (canonMsgId m), ty) = some (t1 + 86400) ∧
    (reportHandler (reportHandler st dist sha1 sw hw or1 t1 ⟨m, ty⟩).store
        dist sha1 sw hw or2 t2 ⟨m, ty⟩).resp
      = { status := 409, body := duplicateBody, oracleAttempted := false } ∧
    (reportHandler (reportHandler st dist sha1 sw hw or1 t1 ⟨m, ty⟩).store
        dist sha1 sw hw or2 t2 ⟨m, ty⟩).store
      = (reportHandler st dist sha1 sw hw or1 t1 ⟨m, ty⟩).store ∧
    (reportHandler (reportHandler st dist sha1 sw hw or1 t1 ⟨m, ty⟩).store
        dist sha1 sw hw or3 t2 ⟨m, ty'⟩).store.markers
        (sha1 (canonMsgId m), ty') = some (t2 + 86400) := by
  have hlive1 : markerLive st (sha1 (canonMsgId m)) ty t1 = false := by
    unfold markerLive
    rw [hfree]
  have h1 := @reportHandler_not_live st dist sha1 sw hw or1 t1 m ty hlive1
  have hmk1 : (reportHandler st dist sha1 sw hw or1 t1 ⟨m, ty⟩).store.markers
      = (markStore st (sha1 (canonMsgId m)) ty t1).markers := by
    rw [h1, reportCore_markers]
  have hc1 : (reportHandler st dist sha1 sw hw or1 t1 ⟨m, ty⟩).store.markers
      (sha1 (canonMsgId m), ty) = some (t1 + 86400) := by
    rw [hmk1]
    unfold markStore
    simp
  refine ⟨hc1, ?_, ?_, ?_⟩
  · have hlive2 : markerLive
        (reportHandler st dist sha1 sw hw or1 t1 ⟨m, ty⟩).store
        (sha1 (canonMsgId m)) ty t2 = true := by
      unfold markerLive
      rw [hc1]
      simpa using hwin
    rw [reportHandler_live hlive2]
  · have hlive2 : markerLive
        (reportHandler st dist sha1 sw hw or1 t1 ⟨m, ty⟩).store
        (sha1 (canonMsgId m)) ty t2 = true := by
      unfold markerLive
      rw [hc1]
      simpa using hwin
    rw [reportHandler_live hlive2]
  · have hmk' : (reportHandler st dist sha1 sw hw or1 t1 ⟨m, ty⟩).store.markers
        (sha1 (canonMsgId m), ty') = none := by
      rw [hmk1]
      unfold markStore
      simp only []
      rw [if_neg]
      · exact hfree'
      · intro hp
        exact hty' (congrArg Prod.snd hp)
    have hlive3 : markerLive
        (reportHandler st dist sha1 sw hw or1 t1 ⟨m, ty⟩).store
        (sha1 (canonMsgId m)) ty' t2 = false := by
      unfold markerLive
      rw [hmk']
    rw [reportHandler_not_live hlive3, reportCore_markers]
    unfold markStore
    simp

theorem report_dedup_witness :
    (reportHandler storeEmpty (fun _ _ => 0) (fun s => s) 1 2
        (some (200, "ok")) 0 ⟨"x@y", "spam"⟩).store.markers
        ((fun (s : String) => s) (canonMsgId "x@y"), "spam") = some 86400 ∧
    (reportHandler (reportHandler storeEmpty (fun _ _ => 0) (fun s => s) 1 2
        (some (200, "ok")) 0 ⟨"x@y", "spam"⟩).store
        (fun _ _ => 0) (fun s => s) 1 2 (some (200, "ok")) 100
        ⟨"x@y", "spam"⟩).resp
      = { status := 409, body := duplicateBody, oracleAttempted := false } ∧
    (reportHandler (reportHandler storeEmpty (fun _ _ => 0) (fun s => s) 1 2
        (some (200, "ok")) 0 ⟨"x@y", "spam"⟩).store
        (fun _ _ => 0) (fun s => s) 1 2 (some (200, "ok")) 100
        ⟨"x@y", "spam"⟩).store
      = (reportHandler storeEmpty (fun _ _ => 0) (fun s => s) 1 2
        (some (200, "ok")) 0 ⟨"x@y", "spam"⟩).store ∧
    (reportHandler (reportHandler storeEmpty (fun _ _ => 0) (fun s => s) 1 2
        (some (200, "ok")) 0 ⟨"x@y", "spam"⟩).store
        (fun _ _ => 0) (fun s => s) 1 2 (some (200, "ok")) 100
        ⟨"x@y", "ham"⟩).store.markers
        ((fun (s : String) => s) (canonMsgId "x@y"), "ham")
      = some (100 + 86400) := by
  have h := report_dedup storeEmpty (fun _ _ => 0) (fun s => s) 1 2
    (some (200, "ok")) (some (200, "ok")) (some (200, "ok")) 0 100
    "x@y" "spam" "ham" rfl (by decide) (by decide) rfl
  exact h

/-- C9: the dedup marker is written before the scan record is looked up, so
a /report that fails with 404 (no scan record) or 400 (scan record with no
hashes) still consumes the 24-hour dedup slot: the first attempt answers
404 resp. 400, performs no learning and no oracle forwarding, changes only
the marker, and a retry of the same `(message-id, report_type)` within 24
hours receives 409. -/
theorem report_dedup_error_path
    (st : Store) (dist : String → String → Nat) (sha1 : String → String)
    (sw hw : Int) (or1 or2 : Option (Nat × String)) (t1 t2 : Nat)
    (m ty : String)
    (hfree : st.markers (sha1 (canonMsgId m), ty) = none)
    (hnoscan : st.scanRecords (sha1 (canonMsgId m)) = none ∨
      st.scanRecords (sha1 (canonMsgId m)) = some [])
    (hwin : t2 < t1 + 86400) :
    ((st.scanRecords (sha1 (canonMsgId m)) = none →
      (reportHandler st dist sha1 sw hw or1 t1 ⟨m, ty⟩).resp
        = { status := 404, body := "No scan data found",
            oracleAttempted := false }) ∧
     (st.scanRecords (sha1 (canonMsgId m)) = some [] →
      (reportHandler st dist sha1 sw hw or1 t1 ⟨m, ty⟩).resp
        = { status := 400, body := "No hashes to report",
            oracleAttempted := false })) ∧
    (∀ b, (reportHandler st dist sha1 sw hw or1 t1 ⟨m, ty⟩).store.localBands b
      = st.localBands b) ∧
    (∀ f, (reportHandler st dist sha1 sw hw or1 t1 ⟨m, ty⟩).store.scores f
      = st.scores f) ∧
    (reportHandler st dist sha1 sw hw or1 t1 ⟨m, ty⟩).store.markers
        (sha1 (canonMsgId m), ty) = some (t1 + 86400) ∧
    (reportHandler (reportHandler st dist sha1 sw hw or1 t1 ⟨m, ty⟩).store
        dist sha1 sw hw or2 t2 ⟨m, ty⟩).resp.status = 409 := by
  have hlive1 : markerLive st (sha1 (canonMsgId m)) ty t1 = false := by
    unfold markerLive
    rw [hfree]
  have h1 := @reportHandler_not_live st dist sha1 sw hw or1 t1 m ty hlive1
  have hcore : reportCore (markStore st (sha1 (canonMsgId m)) ty t1) dist sw hw
      or1 (sha1 (canonMsgId m)) ty
      = { resp :=
            (if st.scanRecords (sha1 (canonMsgId m)) = none then
              { status := 404, body := "No scan data found",
                oracleAttempted := false }
            else
              { status := 400, body := "No hashes to report",
                oracleAttempted := false }),
          store := markStore st (sha1 (canonMsgId m)) ty t1,
          refreshed := [] } := by
    rcases hnoscan with hn | hn
    · have hn' : (markStore st (sha1 (canonMsgId m)) ty t1).scanRecords
          (sha1 (canonMsgId m)) = none := hn
      unfold reportCore
      rw [hn', if_pos hn]
    · have hn' : (markStore st (sha1 (canonMsgId m)) ty t1).scanRecords
          (sha1 (canonMsgId m)) = some [] := hn
      unfold reportCore
      rw [hn', if_neg (by rw [hn]; intro hx; cases hx)]
      rfl
  rw [h1, hcore]
  have hc1 : (markStore st (sha1 (canonMsgId m)) ty t1).markers
      (sha1 (canonMsgId m), ty) = some (t1 + 86400) := by
    unfold markStore
    simp
  refine ⟨⟨?_, ?_⟩, fun b => rfl, fun f => rfl, hc1, ?_⟩
  · intro hn
    rw [if_pos hn]
  · intro hn
    rw [if_neg (by rw [hn]; intro hx; cases hx)]
  · have hlive2 : markerLive (markStore st (sha1 (canonMsgId m)) ty t1)
        (sha1 (canonMsgId m)) ty t2 = true := by
      unfold markerLive
      rw [hc1]
      simpa using hwin
    rw [reportHandler_live hlive2]

theorem report_dedup_error_path_witness :
    (reportHandler storeEmpty (fun _ _ => 0) (fun s => s) 1 2
        (some (200, "ok")) 0 ⟨"z@y", "ham"⟩).resp
      = { status := 404, body := "No scan data found",
          oracleAttempted := false } ∧
    (reportHandler (reportHandler storeEmpty (fun _ _ => 0) (fun s => s) 1 2
        (some (200, "ok")) 0 ⟨"z@y", "ham"⟩).store
        (fun _ _ => 0) (fun s => s) 1 2 (some (200, "ok")) 3600
        ⟨"z@y", "ham"⟩).resp.status = 409 := by
  have h := report_dedup_error_path storeEmpty (fun _ _ => 0) (fun s => s) 1 2
    (some (200, "ok")) (some (200, "ok")) 0 3600 "z@y" "ham" rfl (Or.inl rfl)
    (by decide)
  exact ⟨h.1.1 rfl, h.2.2.2.2⟩

theorem learnFold_eq {dist : String → String → Nat} {sw hw : Int}
    {st1 : Store} {hs : List String} {ty : String}
    (hty : (ty = "spam" || ty = "ham") = true) :
    learnFold dist ty sw hw st1 hs
      = hs.foldl (learnHash dist ty sw hw)
          { localBands := st1.localBands, scores := st1.scores,
            refreshed := [], skip := false } := by
  unfold learnFold
  rw [if_pos hty]

theorem reportCore_some {st1 : Store} {dist : String → String → Nat}
    {sw hw : Int} {orr : Option (Nat × String)} {sha ty : String}
    {hs : List String}
    (hscan : st1.scanRecords sha = some hs) (hne : hs.isEmpty = false) :
    reportCore st1 dist sw hw orr sha ty
      = reportLearn st1 dist sw hw orr ty hs := by
  unfold reportCore
  rw [hscan]
  simp [hne]

theorem reportLearn_skip {st1 : Store} {dist : String → String → Nat}
    {sw hw : Int} {orr : Option (Nat × String)} {hs : List String}
    (hskip : (learnFold dist "spam" sw hw st1 hs).skip = true) :
    (reportLearn st1 dist sw hw orr "spam" hs).resp
      = { status := 200, body := skippedOracleBody,
          oracleAttempted := false } := by
  unfold reportLearn
  rw [if_pos (by simp [hskip])]

theorem reportLearn_noskip {st1 : Store} {dist : String → String → Nat}
    {sw hw : Int} {orr : Option (Nat × String)} {ty : String}
    {hs : List String}
    (h : (ty = "spam" && (learnFold dist ty sw hw st1 hs).skip) = false) :
    (reportLearn st1 dist sw hw orr ty hs).resp.oracleAttempted = true ∧
    (∀ s b, orr = some (s, b) →
      (reportLearn st1 dist sw hw orr ty hs).resp
        = { status := s, body := b, oracleAttempted := true }) := by
  unfold reportLearn
  rw [if_neg (by simp [h])]
  cases orr with
  | none =>
    refine ⟨rfl, ?_⟩
    intro s b hsb
    cases hsb
  | some sb =>
    refine ⟨rfl, ?_⟩
    intro s b hsb
    rw [Option.some.injEq] at hsb
    subst hsb
    rfl

/-- C5: ham-report frame effects.  For a fingerprint `F` of a ham report:
when no stored candidate within distance 70 (via ≥ 4 matching bands) exists,
the learning step for `F` leaves the local store completely unchanged; when
such a neighbor exists, exactly the representative's score is decremented by
`hamWeight` and only its score key TTL-refreshed, with the band index and
every other score untouched, and the representative is a stored candidate at
distance ≤ 70; in both cases a ham report that passes the dedup and
scan-record gates is still forwarded to the oracle. -/
theorem ham_report_frame
    (st : Store) (dist : String → String → Nat) (sha1 : String → String)
    (sw hw : Int) (orr : Option (Nat × String)) (now : Nat) (m : String)
    (ls : LearnState) (F : String) :
    (¬ NeighborFound ls.localBands dist F →
      learnHash dist "ham" sw hw ls F = ls) ∧
    (NeighborFound ls.localBands dist F →
      (learnHash dist "ham" sw hw ls F).scores
          (learnTarget dist ls.localBands F)
        = some ((ls.scores (learnTarget dist ls.localBands F)).getD 0 - hw) ∧
      (∀ k, k ≠ learnTarget dist ls.localBands F →
        (learnHash dist "ham" sw hw ls F).scores k = ls.scores k) ∧
      (∀ b, (learnHash dist "ham" sw hw ls F).localBands b
        = ls.localBands b) ∧
      (learnHash dist "ham" sw hw ls F).refreshed
        = ls.refreshed ++ ["lg_s:" ++ learnTarget dist ls.localBands F] ∧
      learnTarget dist ls.localBands F
        ∈ dedup ((matchedBands ls.localBands (extractBands_6_3 F)).flatMap
            ls.localBands) ∧
      dist F (learnTarget dist ls.localBands F) ≤ 70) ∧
    (markerLive st (sha1 (canonMsgId m)) "ham" now = false →
      ∀ hs, st.scanRecords (sha1 (canonMsgId m)) = some hs → hs ≠ [] →
      (reportHandler st dist sha1 sw hw orr now ⟨m, "ham"⟩).resp.oracleAttempted
        = true) := by
  refine ⟨?_, ?_, ?_⟩
  · intro hn
    have hgt : ¬ (reportBest dist ls.localBands F).2 ≤ 70 :=
      fun hle => hn (reportBest_le_iff.mp hle)
    unfold learnHash
    rw [if_neg (by decide), if_pos rfl, if_neg hgt]
  · intro hn
    have hle : (reportBest dist ls.localBands F).2 ≤ 70 :=
      reportBest_le_iff.mpr hn
    have htgt : learnTarget dist ls.localBands F
        = (reportBest dist ls.localBands F).1 := by
      unfold learnTarget
      rw [if_pos hle]
    have hrep := reportBest_rep_of_le hle
    have hham : learnHash dist "ham" sw hw ls F
        = { ls with
            scores := fun k =>
              if k = learnTarget dist ls.localBands F then
                some ((ls.scores (learnTarget dist ls.localBands F)).getD 0 - hw)
              else ls.scores k,
            refreshed := ls.refreshed
              ++ ["lg_s:" ++ learnTarget dist ls.localBands F] } := by
      unfold learnHash
      rw [if_neg (by decide), if_pos rfl, if_pos hle]
    rw [hham]
    refine ⟨by simp, ?_, fun b => rfl, rfl, ?_, ?_⟩
    · intro k hk
      simp [hk]
    · rw [htgt]
      exact hrep.1
    · rw [htgt, hrep.2]
      exact hle
  · intro hnl hs hscan hne
    have hne' : hs.isEmpty = false := by
      rcases hs with _ | ⟨x, t⟩
      · exact absurd rfl hne
      · rfl
    have hscan' : (markStore st (sha1 (canonMsgId m)) "ham" now).scanRecords
        (sha1 (canonMsgId m)) = some hs := hscan
    rw [reportHandler_not_live hnl,
      reportCore_some hscan' hne']
    refine (reportLearn_noskip ?_).1
    rw [show decide (("ham" : String) = "spam") = false from by decide,
      Bool.false_and]

/-- Learning state holding `digA` in the local index with score 1. -/
def lsA : LearnState :=
  { localBands := storeA.localBands, scores := storeA.scores,
    refreshed := [], skip := false }

/-- Store with a scan record for `<m@x>` holding `digA`. -/
def storeScanHam : Store :=
  { storeEmpty with scanRecords := fun s =>
      if s = canonMsgId "m@x" then some [digA] else none }

theorem ham_report_frame_witness :
    (learnHash (fun _ _ => 0) "ham" 1 2 lsA digA).scores
        (learnTarget (fun _ _ => 0) lsA.localBands digA)
      = some ((lsA.scores
          (learnTarget (fun _ _ => 0) lsA.localBands digA)).getD 0 - 2) ∧
    (reportHandler storeScanHam (fun _ _ => 0) (fun s => s) 1 2
        (some (200, "ok")) 0 ⟨"m@x", "ham"⟩).resp.oracleAttempted = true := by
  have h := ham_report_frame storeScanHam (fun _ _ => 0) (fun s => s) 1 2
    (some (200, "ok")) 0 "m@x" lsA digA
  exact ⟨(h.2.1 ⟨by decide, digA, by decide, by decide⟩).1,
    h.2.2 rfl [digA] (by decide) (by decide)⟩

/-- Store with a scan record for `<c4@x>` holding the two mutually close
fingerprints `digA` and `digAB`, and an otherwise empty local index. -/
def storeScan2 : Store :=
  { storeEmpty with scanRecords := fun s =>
      if s = canonMsgId "c4@x" then some [digA, digAB] else none }

/-- Store holding `digA` (score 1) and a scan record for `<w4@x>`. -/
def storeScan3 : Store :=
  { storeA with scanRecords := fun s =>
      if s = canonMsgId "w4@x" then some [digA] else none }

/-- C4 counterexample: a spam report whose scan record holds two mutually
close fresh fingerprints (`digA`, `digAB`, distance 10, sharing 4 bands)
while the local band index is initially EMPTY — no fingerprint has a stored
local neighbor.  The claim then requires the report to be forwarded to the
oracle with its response (200, "ok") proxied back; but learning from the
first fingerprint makes it a stored neighbor of the second, so the code
answers `skipped_oracle/known_locally` and never posts to the oracle. -/
theorem report_forward_cex :
    (reportHandler storeScan2 (fun _ _ => 10) (fun s => s) 1 2
        (some (200, "ok")) 0 ⟨"c4@x", "spam"⟩).resp
      = { status := 200, body := skippedOracleBody,
          oracleAttempted := false } := by
  decide

/-- C4 (amended): for a spam /report passing the dedup and scan-record
gates: if some fingerprint of the scan record has a stored local neighbor at
distance at most 70 (via ≥ 4 matching bands) in the store as received, the
handler responds 200 `{status:"skipped_oracle", reason:"known_locally"}` and
does not POST to the oracle; and if no fingerprint finds such a neighbor
even in the store as updated by the learning of the preceding fingerprints
of the same report (which can create neighbors the initial store did not
have), the report is forwarded and the oracle's status and body are proxied
back. -/
theorem report_skip_forward
    (st : Store) (dist : String → String → Nat) (sha1 : String → String)
    (sw hw : Int) (orr : Option (Nat × String)) (now : Nat) (m : String)
    (hs : List String)
    (hnl : markerLive st (sha1 (canonMsgId m)) "spam" now = false)
    (hscan : st.scanRecords (sha1 (canonMsgId m)) = some hs)
    (hne : hs ≠ []) :
    ((∃ h ∈ hs, NeighborFound st.localBands dist h) →
      (reportHandler st dist sha1 sw hw orr now ⟨m, "spam"⟩).resp
        = { status := 200, body := skippedOracleBody,
            oracleAttempted := false }) ∧
    (NoNeighborChain dist "spam" sw hw
        { localBands := st.localBands, scores := st.scores,
          refreshed := [], skip := false } hs →
      (reportHandler st dist sha1 sw hw orr now
        ⟨m, "spam"⟩).resp.oracleAttempted = true ∧
      ∀ s b, orr = some (s, b) →
        (reportHandler st dist sha1 sw hw orr now ⟨m, "spam"⟩).resp
          = { status := s, body := b, oracleAttempted := true }) := by
  have hne' : hs.isEmpty = false := by
    rcases hs with _ | _
    · exact absurd rfl hne
    · rfl
  have hscan' : (markStore st (sha1 (canonMsgId m)) "spam" now).scanRecords
      (sha1 (canonMsgId m)) = some hs := hscan
  have hred : reportHandler st dist sha1 sw hw orr now ⟨m, "spam"⟩
      = reportLearn (markStore st (sha1 (canonMsgId m)) "spam" now) dist sw hw
          orr "spam" hs := by
    rw [reportHandler_not_live hnl,
      reportCore_some hscan' hne']
  have hfold : learnFold dist "spam" sw hw
      (markStore st (sha1 (canonMsgId m)) "spam" now) hs
      = hs.foldl (learnHash dist "spam" sw hw)
          { localBands := st.localBands, scores := st.scores,
            refreshed := [], skip := false } := by
    rw [learnFold_eq (by decide)]
    rfl
  constructor
  · rintro ⟨h, hmem, hnf⟩
    rw [hred]
    refine reportLearn_skip ?_
    rw [hfold]
    exact foldl_learn_skip_of_neighbor hs _ ⟨h, hmem, hnf⟩
  · intro hchain
    have hskip : (learnFold dist "spam" sw hw
        (markStore st (sha1 (canonMsgId m)) "spam" now) hs).skip = false := by
      rw [hfold, foldl_learn_skip_of_chain hs _ hchain]
    rw [hred]
    exact reportLearn_noskip (by rw [hskip, Bool.and_false])

theorem report_skip_forward_witness :
    (reportHandler storeScan3 (fun _ _ => 0) (fun s => s) 1 2
        (some (200, "ok")) 0 ⟨"w4@x", "spam"⟩).resp
      = { status := 200, body := skippedOracleBody,
          oracleAttempted := false } :=
  (report_skip_forward storeScan3 (fun _ _ => 0) (fun s => s) 1 2
      (some (200, "ok")) 0 "w4@x" [digA] rfl (by decide) (by decide)).1
    ⟨digA, by decide, by decide, digA, by decide, by decide⟩

end Guardian
